import Mathlib

/-!
Formal model of the scene_maker repository.

Each Python source function that the verified properties touch is translated
into a Lean definition over exact arithmetic (ℚ/ℝ in place of machine floats,
ℤ/ℕ in place of Python ints).  Pixel images are modelled as functions from
coordinates to channel values, remote services as explicit function
parameters, and the file system as explicit lists/predicates.
-/

namespace SceneMaker

/-! ### overlay_images.py -/

/-- Model of overlay_images.check_aspect_ratio: ratios are width/height and the
test is whether the relative difference of the two ratios, measured against
the first image's ratio, is within the tolerance. -/
def check_aspect_ratio (w1 h1 w2 h2 tolerance : ℚ) : Bool :=
  decide (|w1 / h1 - w2 / h2| / (w1 / h1) ≤ tolerance)

/-! ### composite.py: thickness interpolation used by add_thickness_to_visible_edges -/

/-- Model of composite.add_thickness_to_visible_edges: the depth ratio of a
sampled point is its y coordinate divided by the image height (img_bottom). -/
def depth_ratio (y h : ℚ) : ℚ := y / h

/-- Model of composite.add_thickness_to_visible_edges: the local thickness at a
sample is min_thickness + (max_thickness - min_thickness) * depth_ratio with
min_thickness = 4 and max_thickness = the caller's thickness parameter
(the code applies no clamp to the thickness parameter). -/
def local_thickness (thickness r : ℚ) : ℚ := 4 + (thickness - 4) * r

/-- Model of composite.add_thickness_to_visible_edges: the parameter t of the
i-th of n samples along an edge, t = i / max(1, n - 1). -/
def sample_t (i n : ℕ) : ℚ := (i : ℚ) / (max 1 (n - 1) : ℕ)

/-- Default of the thickness parameter of add_thickness_to_visible_edges
(composite.py line 79). -/
def add_thickness_thickness_default : ℤ := 6

/-- Default of the rug_thickness parameter of composite_scene
(composite.py line 199). -/
def composite_scene_rug_thickness_default : ℤ := 6

/-- Default of the texture_strength parameter of composite_scene
(composite.py line 200), 0.55. -/
def composite_scene_texture_strength_default : ℚ := 11 / 20

/-- Default of the --thickness CLI flag of composite.py (line 316). -/
def cli_thickness_default : ℤ := 7

/-- Default of the --texture-strength CLI flag of composite.py (line 319), 0.7. -/
def cli_texture_strength_default : ℚ := 7 / 10

/-! ### String helpers modelling Python str.lower, str.endswith and the
`in` (substring) operator, used by make_white_floor.py and remove_background.py -/

/-- Whether the first character list is an initial segment of the second
(Python startswith, used below to model the substring test). -/
def startsWithChars : List Char → List Char → Bool
  | [], _ => true
  | _ :: _, [] => false
  | a :: as, b :: bs => a == b && startsWithChars as bs

/-- Whether the first character list occurs contiguously inside the second:
Python's substring operator (needle in haystack). -/
def containsChars (p : List Char) : List Char → Bool
  | [] => p.isEmpty
  | c :: rest => startsWithChars p (c :: rest) || containsChars p rest

/-- Python str.endswith: the first list is a final segment of the second. -/
def endsWithChars (p s : List Char) : Bool :=
  startsWithChars p.reverse s.reverse

/-- Python str.lower (restricted to the ASCII range, as in the file names and
error messages this repository manipulates). -/
def lowerStr (s : String) : String := String.mk (s.data.map Char.toLower)

/-! ### make_white_floor.py -/

/-- Model of make_white_floor.py line 88: the caught error message indicates a
timeout when its lower-cased text contains "timed out" or "timeout". -/
def isTimeoutMsg (msg : String) : Bool :=
  containsChars "timed out".data (lowerStr msg).data ||
    containsChars "timeout".data (lowerStr msg).data

/-- One remote generate_content call, as observed by make_white_floor:
either the response carries inline image data (success), or it carries no
image part, or the call raises an exception with message str(e). -/
inductive CallOutcome where
  | success (bytes : List ℕ)
  | noImage
  | exn (msg : String)
deriving DecidableEq

/-- The dict make_white_floor returns: success with image_bytes, or failure
with an error message. -/
inductive WFResult where
  | ok (image_bytes : List ℕ)
  | err (error : String)
deriving DecidableEq

/-- Observable behaviour of one make_white_floor invocation: how many remote
calls were attempted, the seconds slept between attempts (in order), and the
returned result dict. -/
structure WFRun where
  attempts : ℕ
  sleeps : List ℤ
  result : WFResult
deriving DecidableEq

/-- The retry loop of make_white_floor (lines 56-98).  fuel is the number of
loop iterations left (initially max_retries, truncated at 0 as Python's
range does), attempt the current 0-based loop index, sleeps the backoff
waits so far in reverse order.  On a timeout-indicating exception with
attempt < max_retries - 1 the loop sleeps 2^attempt seconds and retries;
every other outcome returns directly; exhausting the loop produces the
fall-through "Max retries exceeded" result. -/
def wfGo (service : ℕ → CallOutcome) (max_retries : ℤ) :
    ℕ → ℕ → List ℤ → WFRun
  | 0, attempt, sleeps => ⟨attempt, sleeps.reverse, .err "Max retries exceeded"⟩
  | fuel + 1, attempt, sleeps =>
    match service attempt with
    | .success b => ⟨attempt + 1, sleeps.reverse, .ok b⟩
    | .noImage => ⟨attempt + 1, sleeps.reverse, .err "No image data in response"⟩
    | .exn msg =>
      if isTimeoutMsg msg = true ∧ (attempt : ℤ) < max_retries - 1 then
        wfGo service max_retries fuel (attempt + 1) ((2 ^ attempt : ℤ) :: sleeps)
      else ⟨attempt + 1, sleeps.reverse, .err msg⟩

/-- Model of make_white_floor: run the retry loop from attempt 0 with
max_retries loop iterations available (none when max_retries ≤ 0, exactly as
Python's range(max_retries)).  The remote service is a parameter giving the
outcome of each attempt. -/
def make_white_floor (service : ℕ → CallOutcome) (max_retries : ℤ) : WFRun :=
  wfGo service max_retries max_retries.toNat 0 []

/-! ### remove_background.py -/

/-- An immediate entry of the input directory: stem and extension (the
extension includes the leading dot, as Python's Path.suffix does). -/
structure DirFile where
  stem : String
  ext : String
deriving DecidableEq

/-- Full file name, Path.name = stem + suffix. -/
def DirFile.name (f : DirFile) : String := f.stem ++ f.ext

/-- remove_background.py line 138: the admissible input extensions. -/
def imageExts : List String := [".png", ".jpg", ".jpeg", ".webp"]

/-- remove_background.py lines 139-143: a directory entry is a candidate input
when its lower-cased extension is an image extension and its stem ends in
neither _fg nor _wf. -/
def isCandidate (f : DirFile) : Bool :=
  imageExts.contains (lowerStr f.ext) &&
    !(endsWithChars "_fg".data f.stem.data || endsWithChars "_wf".data f.stem.data)

/-- remove_background.py line 153: the derived output name stem_fg.target_format. -/
def outName (fmt : String) (f : DirFile) : String := f.stem ++ "_fg." ++ fmt

/-- Per-file status recorded by BackgroundRemover.process_directory. -/
inductive BRStatus where
  | success (output : String)
  | skipped
  | error (msg : String)
deriving DecidableEq

/-- One entry of the results list of process_directory. -/
structure BRRecord where
  file : String
  status : BRStatus
deriving DecidableEq

/-- The record process_directory appends for one candidate file: skipped when
the derived output already exists (no remote call), else success or error
according to the remote call's outcome (remove_background is abstracted as a
function returning bytes or raising with a message). -/
def fileRecord (outExists : String → Bool) (remote : DirFile → Except String (List ℕ))
    (fmt : String) (f : DirFile) : BRRecord :=
  if outExists (outName fmt f) then ⟨f.name, .skipped⟩
  else
    match remote f with
    | .ok _ => ⟨f.name, .success (outName fmt f)⟩
    | .error e => ⟨f.name, .error e⟩

/-- The sequential loop of process_directory (lines 151-177) over the
candidate files, returning the results list together with the number of
remote calls issued. -/
def processFiles (outExists : String → Bool) (remote : DirFile → Except String (List ℕ))
    (fmt : String) : List DirFile → List BRRecord × ℕ
  | [] => ([], 0)
  | f :: rest =>
    let tail := processFiles outExists remote fmt rest
    (fileRecord outExists remote fmt f :: tail.1,
      (if outExists (outName fmt f) then 0 else 1) + tail.2)

/-- Model of BackgroundRemover.process_directory (lines 120-182): filter the
directory listing down to candidates, then process them in order.  The file
system is abstracted by the directory listing and the output-existence
predicate, the remote service by the remote function. -/
def process_directory (files : List DirFile) (outExists : String → Bool)
    (remote : DirFile → Except String (List ℕ)) (fmt : String) : List BRRecord × ℕ :=
  processFiles outExists remote fmt (files.filter isCandidate)

/-! ### composite.py: get_visible_edges -/

/-- np.linalg.norm of a 2-vector with rational coordinates. -/
noncomputable def edgeLen (v : ℚ × ℚ) : ℝ :=
  Real.sqrt ((v.1 : ℝ) ^ 2 + (v.2 : ℝ) ^ 2)

instance decEdgeLenNonpos (v : ℚ × ℚ) : Decidable (edgeLen v ≤ 0) :=
  decidable_of_iff (v = 0) (by
    constructor
    · intro h
      subst h
      simp [edgeLen]
    · intro h
      have hnn := Real.sqrt_nonneg ((v.1 : ℝ) ^ 2 + (v.2 : ℝ) ^ 2)
      have he : Real.sqrt ((v.1 : ℝ) ^ 2 + (v.2 : ℝ) ^ 2) = 0 := le_antisymm h hnn
      have hle := Real.sqrt_eq_zero'.mp he
      have h1 : (v.1 : ℝ) = 0 := by nlinarith [sq_nonneg (v.1 : ℝ), sq_nonneg (v.2 : ℝ)]
      have h2 : (v.2 : ℝ) = 0 := by nlinarith [sq_nonneg (v.1 : ℝ), sq_nonneg (v.2 : ℝ)]
      exact Prod.ext (by exact_mod_cast h1) (by exact_mod_cast h2))

/-- Model of composite.get_visible_edges line 68: the visibility of an edge
whose (unnormalized) outward perpendicular is v is max(0, y-component of the
unit vector v / norm(v)). -/
noncomputable def visibility (v : ℚ × ℚ) : ℝ :=
  max 0 ((v.2 : ℝ) / edgeLen v)

instance decVisibilityPos (v : ℚ × ℚ) : Decidable (0 < visibility v) :=
  decidable_of_iff (0 < v.2) (by
    unfold visibility
    constructor
    · intro h
      have hv2 : (0 : ℝ) < (v.2 : ℝ) := by exact_mod_cast h
      have hlen : 0 < edgeLen v := by
        unfold edgeLen
        exact Real.sqrt_pos.mpr (by nlinarith [sq_nonneg (v.1 : ℝ)])
      exact lt_max_iff.mpr (Or.inr (div_pos hv2 hlen))
    · intro h
      rcases lt_max_iff.mp h with h0 | h0
      · exact absurd h0 (lt_irrefl 0)
      · by_contra hneg
        push_neg at hneg
        have hc : (v.2 : ℝ) ≤ 0 := by exact_mod_cast hneg
        have hnn : (0 : ℝ) ≤ edgeLen v := by
          unfold edgeLen
          exact Real.sqrt_nonneg _
        have := div_nonpos_iff.mpr (Or.inr ⟨hc, hnn⟩)
        exact absurd h0 (not_lt.mpr this))

/-- composite.get_visible_edges line 49: centroid of the four corner points. -/
def centroid4 (p0 p1 p2 p3 : ℚ × ℚ) : ℚ × ℚ :=
  ((p0.1 + p1.1 + p2.1 + p3.1) / 4, (p0.2 + p1.2 + p2.2 + p3.2) / 4)

/-- composite.get_visible_edges lines 61-66: of the two perpendiculars of the
edge vector b - a, the one pointing away from the centroid c (selected by the
sign of its dot product with the midpoint-to-centroid vector). -/
def outwardOf (c a b : ℚ × ℚ) : ℚ × ℚ :=
  let vec : ℚ × ℚ := (b.1 - a.1, b.2 - a.2)
  let n1 : ℚ × ℚ := (vec.2, -vec.1)
  let n2 : ℚ × ℚ := (-vec.2, vec.1)
  let mid : ℚ × ℚ := ((a.1 + b.1) / 2, (a.2 + b.2) / 2)
  let toCenter : ℚ × ℚ := (c.1 - mid.1, c.2 - mid.2)
  if n1.1 * toCenter.1 + n1.2 * toCenter.2 < 0 then n1 else n2

/-- One entry of the visible_edges list: name, start point, end point, and the
unnormalized outward perpendicular (the dict's normalized outward vector and
visibility are VisEdge.unitOutward and VisEdge.vis below). -/
structure VisEdge where
  name : String
  segStart : ℚ × ℚ
  segEnd : ℚ × ℚ
  outward : ℚ × ℚ
deriving DecidableEq

/-- The normalized outward vector stored in the edge dict. -/
noncomputable def VisEdge.unitOutward (e : VisEdge) : ℝ × ℝ :=
  ((e.outward.1 : ℝ) / edgeLen e.outward, (e.outward.2 : ℝ) / edgeLen e.outward)

/-- The visibility stored in the edge dict. -/
noncomputable def VisEdge.vis (e : VisEdge) : ℝ := visibility e.outward

/-- One iteration of the loop of get_visible_edges (lines 57-74): skip the
edge when its length is ≤ 0, otherwise keep it exactly when its visibility is
> 0. -/
def mkEdge (c a b : ℚ × ℚ) (nm : String) : Option VisEdge :=
  if edgeLen (b.1 - a.1, b.2 - a.2) ≤ 0 then none
  else if 0 < visibility (outwardOf c a b) then some ⟨nm, a, b, outwardOf c a b⟩
  else none

/-- Model of composite.get_visible_edges on the four corner points ordered
top-left, top-right, bottom-right, bottom-left: the four successive edges
top, right, bottom, left, keeping the visible ones in order. -/
def get_visible_edges (p0 p1 p2 p3 : ℚ × ℚ) : List VisEdge :=
  let c := centroid4 p0 p1 p2 p3
  [mkEdge c p0 p1 "top", mkEdge c p1 p2 "right",
    mkEdge c p2 p3 "bottom", mkEdge c p3 p0 "left"].filterMap id

/-! ### composite.py: composite_scene data flow (for the determinism claim).
The pixel-level external library transforms (perspective warp, Gaussian
blur, erosion, polygon fill) are abstracted as fixed functions over an
abstract image type, exactly as composite.py calls them with fixed inputs;
the only randomness in the repository (random.random in
render.distort_seam_mask and Image.effect_noise in render.create_edge_mask)
lives inside the renderer, so the rng state is consumed only by render_rug. -/

/-- The fixed inputs and transform steps composite_scene runs, over an
abstract image type Img and an abstract source-of-randomness type Rng. -/
structure PipelineOps (Img Rng : Type) where
  scene_rgb : Img
  design : Img
  render_rug : Rng → Img → Img
  warp : Img → Img
  add_thickness : Img → Img
  apply_lighting : Img → Img
  blur_edges : Img → Img
  over : Img → Img → Img
  fg : Option Img
  blur_fg : Img → Img

/-- Model of the step sequence of composite_scene (lines 232-307): render the
rug unless skip_render, then warp, add thickness, relight, blur edges,
alpha-composite over the scene, and finally composite the foreground layer
when present. -/
def composite_scene_flow {Img Rng : Type} (ops : PipelineOps Img Rng) (rng : Rng)
    (skip_render : Bool) : Img :=
  let rug := if skip_render then ops.design else ops.render_rug rng ops.design
  let warped := ops.warp rug
  let thick := ops.add_thickness warped
  let lit := ops.apply_lighting thick
  let soft := ops.blur_edges lit
  let comp := ops.over ops.scene_rgb soft
  match ops.fg with
  | none => comp
  | some f => ops.over comp (ops.blur_fg f)

/-! ### render.py: create_edge_mask -/

/-- render.create_edge_mask line 82: radius = max(0, min(radius, min(w,h)//2)). -/
def clampRadius (w h : ℕ) (radius : ℤ) : ℕ :=
  (min radius ((min w h : ℤ) / 2)).toNat

/-- Models the external drawing call draw.rounded_rectangle((0,0,w-1,h-1),
radius=rc, fill=255) of render.create_edge_mask line 88: a pixel belongs to
the filled region iff it lies inside the box and, within each rc × rc corner
square, inside the quarter circle of radius rc centred rc pixels in from the
two adjacent sides. -/
def insideRounded (w h rc x y : ℤ) : Prop :=
  0 ≤ x ∧ x ≤ w - 1 ∧ 0 ≤ y ∧ y ≤ h - 1 ∧
    (x < rc ∧ y < rc → (rc - x) ^ 2 + (rc - y) ^ 2 ≤ rc ^ 2) ∧
    (w - 1 - rc < x ∧ y < rc → (x - (w - 1 - rc)) ^ 2 + (rc - y) ^ 2 ≤ rc ^ 2) ∧
    (w - 1 - rc < x ∧ h - 1 - rc < y →
      (x - (w - 1 - rc)) ^ 2 + (y - (h - 1 - rc)) ^ 2 ≤ rc ^ 2) ∧
    (x < rc ∧ h - 1 - rc < y → (rc - x) ^ 2 + (y - (h - 1 - rc)) ^ 2 ≤ rc ^ 2)

instance decInsideRounded (w h rc x y : ℤ) : Decidable (insideRounded w h rc x y) := by
  unfold insideRounded
  infer_instance

/-- Pixel (x, y) of the clean rounded-rectangle mask of clamped radius rc. -/
def roundedRectPx (w h rc x y : ℕ) : ℕ :=
  if insideRounded (w : ℤ) (h : ℤ) (rc : ℤ) (x : ℤ) (y : ℤ) then 255 else 0

open Classical in
/-- The distance of pixel (x, y) to the mask boundary computed by the jitter
loop of render.create_edge_mask (lines 115-129): the least distance to the
four straight edges, replaced (when smaller) by the radial distance to a
corner circle when the half-pixel-centred, symmetrized coordinates fall in a
corner square, clipped below at 0. -/
noncomputable def jitterDist (w h rc x y : ℕ) : ℝ :=
  let distX : ℚ := min (x : ℚ) ((w : ℚ) - 1 - (x : ℚ))
  let distY : ℚ := min (y : ℚ) ((h : ℚ) - 1 - (y : ℚ))
  let dist0 : ℝ := ((min distX distY : ℚ) : ℝ)
  let px : ℚ := (x : ℚ) + 1 / 2
  let py : ℚ := (y : ℚ) + 1 / 2
  let pxSym : ℚ := if px ≤ (w : ℚ) / 2 then px else (w : ℚ) - px
  let pySym : ℚ := if py ≤ (h : ℚ) / 2 then py else (h : ℚ) - py
  if 0 < rc ∧ pxSym ≤ (rc : ℚ) ∧ pySym ≤ (rc : ℚ) then
    let dx : ℚ := (rc : ℚ) - pxSym
    let dy : ℚ := (rc : ℚ) - pySym
    let radial : ℝ := (rc : ℝ) - Real.sqrt ((dx : ℝ) ^ 2 + (dy : ℝ) ^ 2)
    if radial < dist0 then max radial 0 else dist0
  else dist0

open Classical in
/-- The per-pixel body of the jitter loop of render.create_edge_mask
(lines 110-140) applied to one pixel whose current value is cur: an already
transparent pixel stays 0; otherwise the boundary distance of the pixel is
compared against the jitter depth drawn from the noise field, and the pixel
is erased to 0 when it is close enough and the noise value falls below the
jitter density.  (Python's round on the exact half is round-half-even while
Mathlib's round is round-half-up; no property below depends on the half
case.) -/
noncomputable def jitteredPx (w h rc maxJitter : ℕ) (jd : ℚ) (noise : ℕ → ℕ → ℕ)
    (x y cur : ℕ) : ℕ :=
  if cur = 0 then 0
  else
    let dist : ℝ := jitterDist w h rc x y
    if (maxJitter : ℝ) ≤ dist ∨ dist < 0 then cur
    else
      let rnd : ℚ := (noise x y : ℚ) / 255
      if jd ≤ rnd then cur
      else
        let depth : ℤ := max 1 (round ((maxJitter : ℝ) * (1 - (rnd : ℝ))))
        if dist < (depth : ℝ) then 0 else cur

/-- Model of render.create_edge_mask (lines 74-142) as a per-pixel function:
radius 0 yields the all-opaque mask; otherwise the clean rounded-rectangle
mask, left unchanged when jitter ≤ 0, the clamped jitter density is 0, or the
effective max jitter is ≤ 0, and otherwise eroded pixel-wise by the jitter
pass driven by the noise field (Image.effect_noise, modelled as an arbitrary
per-pixel field). -/
noncomputable def create_edge_mask (w h : ℕ) (radius jitter : ℤ) (jitter_density : ℚ)
    (noise : ℕ → ℕ → ℕ) (x y : ℕ) : ℕ :=
  let rc := clampRadius w h radius
  if rc = 0 then (if x < w ∧ y < h then 255 else 0)
  else
    let base := roundedRectPx w h rc x y
    let j : ℤ := max 0 jitter
    if j = 0 then base
    else
      let jd : ℚ := max 0 (min 1 jitter_density)
      if jd = 0 then base
      else
        let maxJitter : ℤ := min j ((min w h : ℤ) / 2)
        if maxJitter ≤ 0 then base
        else jitteredPx w h rc maxJitter.toNat jd noise x y base

/-! ## Theorems -/

/-- C8: check_aspect_ratio returns true exactly when |ratio1 - ratio2| /
ratio1 ≤ tolerance with ratio = width/height; in particular for images of
sizes 100×100 and 100×101 with tolerance 0.01 it returns true, and for sizes
100×100 and 100×110 it returns false. -/
theorem check_aspect_ratio_spec (w1 h1 w2 h2 tol : ℚ) :
    (check_aspect_ratio w1 h1 w2 h2 tol = true ↔
      |w1 / h1 - w2 / h2| / (w1 / h1) ≤ tol) ∧
    check_aspect_ratio 100 100 100 101 (1 / 100) = true ∧
    check_aspect_ratio 100 100 100 110 (1 / 100) = false :=
  ⟨by simp [check_aspect_ratio],
    by simp [check_aspect_ratio]; norm_num; rw [abs_of_pos] <;> norm_num,
    by simp [check_aspect_ratio]; norm_num; rw [abs_of_pos] <;> norm_num⟩

/-- C2 counterexample: add_thickness_to_visible_edges applies no minimum
clamp of 4 to its thickness parameter, so with thickness 3 the local
thickness at a bottom-row sample (depth_ratio = 1) is 3, outside the claimed
interval [4, thickness]. -/
theorem local_thickness_no_min_clamp_cex :
    local_thickness 3 (depth_ratio 100 100) = 3 ∧
      ¬ 4 ≤ local_thickness 3 (depth_ratio 100 100) := by
  unfold local_thickness depth_ratio
  norm_num

/-- C2 amended: for thickness ≥ 4 (the code applies no clamp, so this must be
assumed rather than enforced), at every sample whose y coordinate lies within
the image the depth ratio is in [0, 1] and the interpolated local thickness
lies in [4, thickness]; it equals 4 at depth_ratio 0, equals thickness at
depth_ratio 1, and — when thickness > 4 — equals thickness only at
depth_ratio 1 (at thickness = 4 it equals thickness everywhere). -/
theorem local_thickness_bounds_amended (t y h : ℚ) (ht : 4 ≤ t) (hh : 0 < h)
    (hy0 : 0 ≤ y) (hyh : y ≤ h) :
    (0 ≤ depth_ratio y h ∧ depth_ratio y h ≤ 1) ∧
    4 ≤ local_thickness t (depth_ratio y h) ∧
    local_thickness t (depth_ratio y h) ≤ t ∧
    local_thickness t 0 = 4 ∧
    local_thickness t 1 = t ∧
    (4 < t → local_thickness t (depth_ratio y h) = t → depth_ratio y h = 1) := by
  have hr0 : 0 ≤ depth_ratio y h := div_nonneg hy0 (le_of_lt hh)
  have hr1 : depth_ratio y h ≤ 1 := (div_le_one hh).mpr hyh
  refine ⟨⟨hr0, hr1⟩, ?_, ?_, by simp [local_thickness], by unfold local_thickness; ring, ?_⟩
  · unfold local_thickness
    nlinarith [mul_nonneg (by linarith : (0 : ℚ) ≤ t - 4) hr0]
  · unfold local_thickness
    nlinarith [mul_nonneg (by linarith : (0 : ℚ) ≤ t - 4) (by linarith : (0 : ℚ) ≤ 1 - depth_ratio y h)]
  · intro h4 heq
    unfold local_thickness at heq
    have hz : (t - 4) * (1 - depth_ratio y h) = 0 := by linear_combination -heq
    rcases mul_eq_zero.mp hz with h0 | h0
    · linarith
    · linarith

/-- C2 witness: the amended statement at thickness 7, image height 100,
sample y coordinate 50. -/
theorem local_thickness_bounds_witness :
    (0 ≤ depth_ratio 50 100 ∧ depth_ratio 50 100 ≤ 1) ∧
    4 ≤ local_thickness 7 (depth_ratio 50 100) ∧
    local_thickness 7 (depth_ratio 50 100) ≤ 7 ∧
    local_thickness 7 0 = 4 ∧
    local_thickness 7 1 = 7 ∧
    ((4 : ℚ) < 7 → local_thickness 7 (depth_ratio 50 100) = 7 → depth_ratio 50 100 = 1) :=
  local_thickness_bounds_amended 7 50 100 (by decide) (by decide) (by decide) (by decide)

/-- C3 counterexample: calling composite_scene without specifying
rug_thickness or texture_strength uses the function defaults 6 and 0.55, not
the claimed 7 and 0.7, and add_thickness_to_visible_edges' thickness
parameter likewise defaults to 6, not 7. -/
theorem composite_defaults_cex :
    ¬ (composite_scene_rug_thickness_default = 7 ∧
        add_thickness_thickness_default = 7 ∧
        composite_scene_texture_strength_default = 7 / 10) := by
  unfold composite_scene_rug_thickness_default
  norm_num

/-- C3 amended: composite_scene's rug_thickness parameter defaults to 6 and
its texture_strength parameter defaults to 0.55, matching
add_thickness_to_visible_edges' thickness default of 6; the defaults 7 and
0.7 are those of the CLI flags --thickness and --texture-strength, which the
CLI entry point always passes explicitly. -/
theorem composite_defaults_amended :
    composite_scene_rug_thickness_default = 6 ∧
    add_thickness_thickness_default = 6 ∧
    composite_scene_texture_strength_default = 11 / 20 ∧
    cli_thickness_default = 7 ∧
    cli_texture_strength_default = 7 / 10 := by
  refine ⟨rfl, rfl, rfl, rfl, rfl⟩

/-- C6: with skip_render = true the composite_scene step sequence
(perspective warp, edge-thickness synthesis, relighting, edge blur, alpha
compositing) never consumes the source of randomness — only the skipped
render_rug step does — so two invocations over the same fixed scene, design
and parameters produce identical output images. -/
theorem composite_scene_flow_deterministic {Img Rng : Type}
    (ops : PipelineOps Img Rng) (rng1 rng2 : Rng) :
    composite_scene_flow ops rng1 true = composite_scene_flow ops rng2 true := by
  simp [composite_scene_flow]

/-- C4: against a service whose every call raises a timeout-indicating error,
make_white_floor with max_retries = 3 makes exactly 3 remote attempts,
sleeping 1 second after the first failure and 2 seconds after the second,
and returns failure carrying the final attempt's message; a service whose
first call raises a non-timeout error makes that theorem's second scenario
return failure with that message immediately after a single attempt. -/
theorem make_white_floor_retry_spec (msgs : ℕ → String)
    (ht : ∀ k, isTimeoutMsg (msgs k) = true)
    (service2 : ℕ → CallOutcome) (m : String) (h0 : service2 0 = .exn m)
    (hm : isTimeoutMsg m = false) :
    make_white_floor (fun k => CallOutcome.exn (msgs k)) 3 =
      ⟨3, [1, 2], WFResult.err (msgs 2)⟩ ∧
    make_white_floor service2 3 = ⟨1, [], WFResult.err m⟩ := by
  constructor
  · show wfGo _ 3 3 0 [] = _
    rw [wfGo, wfGo, wfGo]
    simp [ht]
  · show wfGo _ 3 3 0 [] = _
    rw [wfGo, h0]
    simp [hm]

/-- C4 witness: the retry theorem applied to a service that always times out
with message "Request timed out" and to a service that fails fast with the
non-timeout message "boom". -/
theorem make_white_floor_retry_witness :
    make_white_floor (fun k => CallOutcome.exn ((fun _ : ℕ => "Request timed out") k)) 3 =
      ⟨3, [1, 2], WFResult.err ((fun _ : ℕ => "Request timed out") 2)⟩ ∧
    make_white_floor (fun _ => CallOutcome.exn "boom") 3 = ⟨1, [], WFResult.err "boom"⟩ :=
  make_white_floor_retry_spec (fun _ => "Request timed out")
    (fun _ => (by decide : isTimeoutMsg "Request timed out" = true))
    (fun _ => CallOutcome.exn "boom") "boom" rfl (by decide)

/-- Helper for the retry-loop fall-through analysis: whenever the loop is
entered with positive remaining fuel consistent with its loop bound
(attempt + fuel = max_retries), a returned "Max retries exceeded" failure
can only be the echo of a service exception carrying exactly that message —
the fall-through return after the loop is unreachable. -/
theorem wfGo_marker_origin (service : ℕ → CallOutcome) (mr : ℤ) (fuel : ℕ) :
    ∀ (attempt : ℕ) (sleeps : List ℤ), 1 ≤ fuel → (attempt : ℤ) + fuel = mr →
      (wfGo service mr fuel attempt sleeps).result = .err "Max retries exceeded" →
      ∃ k, k < attempt + fuel ∧ service k = .exn "Max retries exceeded" := by
  induction fuel with
  | zero => intro attempt sleeps h1 _ _; omega
  | succ n ih =>
    intro attempt sleeps _ hinv hres
    rw [wfGo] at hres
    split at hres
    · simp at hres
    · simp at hres
    · rename_i msg hs
      split at hres
      · rename_i hc
        obtain ⟨-, hlt⟩ := hc
        have hn : 1 ≤ n := by omega
        obtain ⟨k, hk1, hk2⟩ := ih (attempt + 1) ((2 ^ attempt : ℤ) :: sleeps) hn
          (by push_cast at hinv ⊢; omega) hres
        exact ⟨k, by omega, hk2⟩
      · simp at hres
        subst hres
        exact ⟨attempt, by omega, hs⟩

/-- C9 counterexample: a service exception whose own message is exactly
"Max retries exceeded" is not timeout-indicating, so make_white_floor with
max_retries = 3 ≥ 1 echoes it back after the first attempt — refuting the
literal claim that {success:false, error:"Max retries exceeded"} is never
returned when max_retries ≥ 1. -/
theorem make_white_floor_marker_echo_cex :
    (make_white_floor (fun _ => CallOutcome.exn "Max retries exceeded") 3).result =
      WFResult.err "Max retries exceeded" := by
  decide

/-- C9 amended: for max_retries ≥ 1 the retry loop's fall-through return is
unreachable — a returned {success:false, error:"Max retries exceeded"} can
only be the verbatim echo of a service error with exactly that message on
some attempted call (on the final attempt every outcome returns directly,
a timeout there returning its own message); the fall-through result, with
zero remote calls attempted, is produced exactly when max_retries ≤ 0. -/
theorem make_white_floor_fallthrough_amended (service : ℕ → CallOutcome) (mr : ℤ) :
    (1 ≤ mr →
      (make_white_floor service mr).result = .err "Max retries exceeded" →
      ∃ k, k < mr.toNat ∧ service k = .exn "Max retries exceeded") ∧
    (mr ≤ 0 → make_white_floor service mr = ⟨0, [], .err "Max retries exceeded"⟩) := by
  constructor
  · intro h1 hres
    obtain ⟨k, hk, hsk⟩ :=
      wfGo_marker_origin service mr mr.toNat 0 [] (by omega) (by omega) hres
    exact ⟨k, by omega, hsk⟩
  · intro h0
    have ht0 : mr.toNat = 0 := by omega
    simp [make_white_floor, ht0, wfGo]

/-- Helper: the sequential per-file loop of process_directory produces one
record per candidate file (later files are processed whatever happened on
earlier ones) and issues one remote call exactly for the candidates whose
derived output does not already exist. -/
theorem processFiles_eq_map (outExists : String → Bool)
    (remote : DirFile → Except String (List ℕ)) (fmt : String) :
    ∀ l : List DirFile,
      processFiles outExists remote fmt l =
        (l.map (fileRecord outExists remote fmt),
          l.countP (fun f => !outExists (outName fmt f))) := by
  intro l
  induction l with
  | nil => rfl
  | cons f rest ih =>
    by_cases h : outExists (outName fmt f)
    · simp [processFiles, ih, h, List.countP_cons]
    · simp [processFiles, ih, h, List.countP_cons]
      omega

/-- C5: process_directory records exactly one result per candidate file (a
failing file is recorded as an error entry and never aborts the remaining
files), and whenever every candidate's derived output stem_fg.target_format
already exists it issues zero remote calls and records status skipped for
every file. -/
theorem process_directory_skip_spec (files : List DirFile) (outExists : String → Bool)
    (remote : DirFile → Except String (List ℕ)) (fmt : String) :
    (process_directory files outExists remote fmt).1 =
      (files.filter isCandidate).map (fileRecord outExists remote fmt) ∧
    ((∀ f ∈ files.filter isCandidate, outExists (outName fmt f) = true) →
      (process_directory files outExists remote fmt).2 = 0 ∧
      ∀ r ∈ (process_directory files outExists remote fmt).1,
        r.status = BRStatus.skipped) := by
  unfold process_directory
  rw [processFiles_eq_map]
  refine ⟨rfl, fun hall => ⟨?_, ?_⟩⟩
  · simp only [List.countP_eq_zero]
    intro f hf
    simp [hall f hf]
  · intro r hr
    simp only [List.mem_map] at hr
    obtain ⟨f, hf, rfl⟩ := hr
    simp [fileRecord, hall f hf]

/-- C5 witness: a directory whose two candidate images both already have
their _fg output present, against a remote that would fail if called. -/
theorem process_directory_skip_witness :
    (process_directory [⟨"room1", ".png"⟩, ⟨"pic", ".JPG"⟩] (fun _ => true)
        (fun _ => Except.error "network down") "png").2 = 0 ∧
    ∀ r ∈ (process_directory [⟨"room1", ".png"⟩, ⟨"pic", ".JPG"⟩] (fun _ => true)
        (fun _ => Except.error "network down") "png").1,
      r.status = BRStatus.skipped :=
  (process_directory_skip_spec [⟨"room1", ".png"⟩, ⟨"pic", ".JPG"⟩] (fun _ => true)
      (fun _ => Except.error "network down") "png").2 (by decide)

/-- C9 witness: the amended theorem applied to the echoing service at
max_retries = 3. -/
theorem make_white_floor_fallthrough_witness :
    ∃ k, k < (3 : ℤ).toNat ∧
      (fun _ : ℕ => CallOutcome.exn "Max retries exceeded") k =
        CallOutcome.exn "Max retries exceeded" :=
  (make_white_floor_fallthrough_amended (fun _ => CallOutcome.exn "Max retries exceeded") 3).1
    (by decide) (by decide)

/-- Helper: a vector has length ≤ 0 exactly when it is the zero vector. -/
theorem edgeLen_nonpos_iff (v : ℚ × ℚ) : edgeLen v ≤ 0 ↔ v = 0 := by
  constructor
  · intro h
    have hnn := Real.sqrt_nonneg ((v.1 : ℝ) ^ 2 + (v.2 : ℝ) ^ 2)
    have he : Real.sqrt ((v.1 : ℝ) ^ 2 + (v.2 : ℝ) ^ 2) = 0 := le_antisymm h hnn
    have hle := Real.sqrt_eq_zero'.mp he
    have h1 : (v.1 : ℝ) = 0 := by nlinarith [sq_nonneg (v.1 : ℝ), sq_nonneg (v.2 : ℝ)]
    have h2 : (v.2 : ℝ) = 0 := by nlinarith [sq_nonneg (v.1 : ℝ), sq_nonneg (v.2 : ℝ)]
    exact Prod.ext (by exact_mod_cast h1) (by exact_mod_cast h2)
  · intro h
    subst h
    simp [edgeLen]

/-- Helper: the visibility of an edge is positive exactly when the y component
of its outward perpendicular is positive.  (The code keeps an edge when
max(0, unit outward y) > 0.) -/
theorem visibility_pos_iff (v : ℚ × ℚ) : 0 < visibility v ↔ 0 < v.2 := by
  unfold visibility
  constructor
  · intro h
    rcases lt_max_iff.mp h with h0 | h0
    · exact absurd h0 (lt_irrefl 0)
    · by_contra hneg
      push_neg at hneg
      have hc : (v.2 : ℝ) ≤ 0 := by exact_mod_cast hneg
      have hnn : (0 : ℝ) ≤ edgeLen v := by
        unfold edgeLen
        exact Real.sqrt_nonneg _
      exact absurd h0 (not_lt.mpr (div_nonpos_iff.mpr (Or.inr ⟨hc, hnn⟩)))
  · intro h
    have hv2 : (0 : ℝ) < (v.2 : ℝ) := by exact_mod_cast h
    have hlen : 0 < edgeLen v := by
      unfold edgeLen
      exact Real.sqrt_pos.mpr (by nlinarith [sq_nonneg (v.1 : ℝ)])
    exact lt_max_iff.mpr (Or.inr (div_pos hv2 hlen))

/-- Helper: an outward perpendicular pointing straight down, (0, t) with
t > 0, has unit normal (0, 1) and hence visibility exactly 1. -/
theorem visibility_vert_pos (t : ℚ) (ht : 0 < t) : visibility (0, t) = 1 := by
  unfold visibility edgeLen
  have htR : (0 : ℝ) < (t : ℝ) := by exact_mod_cast ht
  have h1 : (((0 : ℚ) : ℝ)) ^ 2 + ((t : ℚ) : ℝ) ^ 2 = (t : ℝ) ^ 2 := by
    push_cast
    ring
  rw [show ((0 : ℚ), t).1 = (0 : ℚ) from rfl, show ((0 : ℚ), t).2 = t from rfl, h1,
    Real.sqrt_sq htR.le, div_self (ne_of_gt htR)]
  exact max_eq_right zero_le_one

/-- Helper: an outward perpendicular whose y component is ≤ 0 has visibility
exactly 0. -/
theorem visibility_nonpos_y (v : ℚ × ℚ) (h : v.2 ≤ 0) : visibility v = 0 := by
  unfold visibility
  have hc : ((v.2 : ℝ)) ≤ 0 := by exact_mod_cast h
  have hnn : (0 : ℝ) ≤ edgeLen v := by
    unfold edgeLen
    exact Real.sqrt_nonneg _
  exact max_eq_left (div_nonpos_iff.mpr (Or.inr ⟨hc, hnn⟩))

/-- Helper: the loop body of get_visible_edges with the length and visibility
tests rephrased over the rational coordinates. -/
theorem mkEdge_eval (c : ℚ × ℚ) (ax ay bx bY : ℚ) (nm : String) :
    mkEdge c (ax, ay) (bx, bY) nm =
      if bx - ax = 0 ∧ bY - ay = 0 then none
      else if 0 < (outwardOf c (ax, ay) (bx, bY)).2
      then some ⟨nm, (ax, ay), (bx, bY), outwardOf c (ax, ay) (bx, bY)⟩
      else none := by
  simp only [mkEdge, edgeLen_nonpos_iff, visibility_pos_iff, Prod.mk_eq_zero]

/-- Helper: centroid of four corner points, written out. -/
theorem centroid4_eval (ax ay bx bY cx cy dx dy : ℚ) :
    centroid4 (ax, ay) (bx, bY) (cx, cy) (dx, dy) =
      ((ax + bx + cx + dx) / 4, (ay + bY + cy + dy) / 4) := rfl

/-- Helper: the outward-perpendicular selection, written out over coordinates:
n1 = (by - ay, -(bx - ax)) is chosen when its dot product with the
midpoint-to-centroid vector is negative, n2 otherwise. -/
theorem outwardOf_eval (cx cy ax ay bx bY : ℚ) :
    outwardOf (cx, cy) (ax, ay) (bx, bY) =
      if (bY - ay) * (cx - (ax + bx) / 2) + (-(bx - ax)) * (cy - (ay + bY) / 2) < 0
      then (bY - ay, -(bx - ax)) else (-(bY - ay), bx - ax) := rfl

/-- C1: for a floor quadrilateral whose corners (ordered top-left, top-right,
bottom-right, bottom-left) form an axis-aligned rectangle (x1 < x2 left to
right, y1 < y2 top to bottom in image coordinates), get_visible_edges returns
exactly the bottom edge (the corner pair bottom-right, bottom-left), whose
outward perpendicular points straight down and whose visibility is exactly 1;
the top edge's outward normal points straight up, its visibility is exactly
0, and it is excluded; and a zero-length edge is always skipped. -/
theorem get_visible_edges_rect_spec (x1 x2 y1 y2 : ℚ) (hx : x1 < x2) (hy : y1 < y2) :
    get_visible_edges (x1, y1) (x2, y1) (x2, y2) (x1, y2) =
      [⟨"bottom", (x2, y2), (x1, y2), (0, x2 - x1)⟩] ∧
    visibility (0, x2 - x1) = 1 ∧
    visibility (outwardOf (centroid4 (x1, y1) (x2, y1) (x2, y2) (x1, y2)) (x1, y1) (x2, y1)) = 0 ∧
    (∀ c p nm, mkEdge c p p nm = none) := by
  have hxx : (0 : ℚ) < x2 - x1 := sub_pos.mpr hx
  have hyy : (0 : ℚ) < y2 - y1 := sub_pos.mpr hy
  have hzl : ∀ c p nm, mkEdge c p p nm = none := by
    intro c p nm
    unfold mkEdge
    rw [if_pos ((edgeLen_nonpos_iff _).mpr (by simp [Prod.ext_iff]))]
  have otop : outwardOf (centroid4 (x1, y1) (x2, y1) (x2, y2) (x1, y2)) (x1, y1) (x2, y1)
      = (0, x1 - x2) := by
    rw [centroid4_eval, outwardOf_eval, if_pos (by nlinarith [mul_pos hxx hyy])]
    simp only [Prod.mk.injEq]
    constructor <;> ring_nf
  have oright : outwardOf (centroid4 (x1, y1) (x2, y1) (x2, y2) (x1, y2)) (x2, y1) (x2, y2)
      = (y2 - y1, 0) := by
    rw [centroid4_eval, outwardOf_eval, if_pos (by nlinarith [mul_pos hxx hyy])]
    simp only [Prod.mk.injEq]
    constructor <;> ring_nf
  have obottom : outwardOf (centroid4 (x1, y1) (x2, y1) (x2, y2) (x1, y2)) (x2, y2) (x1, y2)
      = (0, x2 - x1) := by
    rw [centroid4_eval, outwardOf_eval, if_pos (by nlinarith [mul_pos hxx hyy])]
    simp only [Prod.mk.injEq]
    constructor <;> ring_nf
  have oleft : outwardOf (centroid4 (x1, y1) (x2, y1) (x2, y2) (x1, y2)) (x1, y2) (x1, y1)
      = (y1 - y2, 0) := by
    rw [centroid4_eval, outwardOf_eval, if_pos (by nlinarith [mul_pos hxx hyy])]
    simp only [Prod.mk.injEq]
    constructor <;> ring_nf
  refine ⟨?_, visibility_vert_pos (x2 - x1) hxx, ?_, hzl⟩
  · have htop : mkEdge (centroid4 (x1, y1) (x2, y1) (x2, y2) (x1, y2)) (x1, y1) (x2, y1) "top"
        = none := by
      rw [mkEdge_eval, otop]
      rw [if_neg (by rintro ⟨h1, h2⟩; linarith),
        if_neg (by intro hcon; rw [show ((0 : ℚ), x1 - x2).2 = x1 - x2 from rfl] at hcon; linarith)]
    have hright : mkEdge (centroid4 (x1, y1) (x2, y1) (x2, y2) (x1, y2)) (x2, y1) (x2, y2) "right"
        = none := by
      rw [mkEdge_eval, oright]
      rw [if_neg (by rintro ⟨h1, h2⟩; linarith),
        if_neg (by intro hcon; rw [show (y2 - y1, (0 : ℚ)).2 = 0 from rfl] at hcon; linarith)]
    have hbottom : mkEdge (centroid4 (x1, y1) (x2, y1) (x2, y2) (x1, y2)) (x2, y2) (x1, y2) "bottom"
        = some ⟨"bottom", (x2, y2), (x1, y2), (0, x2 - x1)⟩ := by
      rw [mkEdge_eval, obottom]
      rw [if_neg (by rintro ⟨h1, h2⟩; linarith),
        if_pos (show (0 : ℚ) < ((0 : ℚ), x2 - x1).2 from hxx)]
    have hleft : mkEdge (centroid4 (x1, y1) (x2, y1) (x2, y2) (x1, y2)) (x1, y2) (x1, y1) "left"
        = none := by
      rw [mkEdge_eval, oleft]
      rw [if_neg (by rintro ⟨h1, h2⟩; linarith),
        if_neg (by intro hcon; rw [show (y1 - y2, (0 : ℚ)).2 = 0 from rfl] at hcon; linarith)]
    unfold get_visible_edges
    simp only [htop, hright, hbottom, hleft]
    rfl
  · rw [otop]
    exact visibility_nonpos_y (0, x1 - x2) (by
      rw [show ((0 : ℚ), x1 - x2).2 = x1 - x2 from rfl]
      linarith)

/-- Helper: the jitter pass for one pixel either erases it to 0 or leaves its
current value unchanged — it never produces any other value. -/
theorem jitteredPx_le (w h rc mj : ℕ) (jd : ℚ) (noise : ℕ → ℕ → ℕ) (x y cur : ℕ) :
    jitteredPx w h rc mj jd noise x y cur = 0 ∨
      jitteredPx w h rc mj jd noise x y cur = cur := by
  simp only [jitteredPx]
  split
  · exact Or.inl rfl
  · split
    · exact Or.inr rfl
    · split
      · exact Or.inr rfl
      · split
        · exact Or.inl rfl
        · exact Or.inr rfl

/-- Helper: a clean rounded-rectangle pixel is 0 or 255. -/
theorem roundedRectPx_cases (w h rc x y : ℕ) :
    roundedRectPx w h rc x y = 0 ∨ roundedRectPx w h rc x y = 255 := by
  unfold roundedRectPx
  split_ifs <;> simp

/-- Helper: with jitter = 0 the mask is the clean one: all-opaque at clamped
radius 0 and the rounded rectangle otherwise, independent of noise and
density. -/
theorem create_edge_mask_zero_jitter (w h : ℕ) (radius : ℤ) (jd : ℚ)
    (noise : ℕ → ℕ → ℕ) (x y : ℕ) :
    create_edge_mask w h radius 0 jd noise x y =
      if clampRadius w h radius = 0 then (if x < w ∧ y < h then 255 else 0)
      else roundedRectPx w h (clampRadius w h radius) x y := by
  simp only [create_edge_mask]
  by_cases h1 : clampRadius w h radius = 0
  · simp [h1]
  · rw [if_neg h1, if_neg h1, if_pos (show (max 0 (0 : ℤ)) = 0 from rfl)]

/-- Helper: every create_edge_mask pixel is either 0 or equal to the clean
(jitter = 0) value at the same place. -/
theorem create_edge_mask_le_clean (w h : ℕ) (radius jitter : ℤ) (jd : ℚ)
    (noise : ℕ → ℕ → ℕ) (x y : ℕ) :
    create_edge_mask w h radius jitter jd noise x y = 0 ∨
    create_edge_mask w h radius jitter jd noise x y =
      (if clampRadius w h radius = 0 then (if x < w ∧ y < h then 255 else 0)
       else roundedRectPx w h (clampRadius w h radius) x y) := by
  simp only [create_edge_mask]
  by_cases h1 : clampRadius w h radius = 0
  · simp [h1]
  · rw [if_neg h1, if_neg h1]
    by_cases h2 : (max 0 jitter) = 0
    · rw [if_pos h2]
      exact Or.inr rfl
    · rw [if_neg h2]
      by_cases h3 : (max 0 (min 1 jd)) = 0
      · rw [if_pos h3]
        exact Or.inr rfl
      · rw [if_neg h3]
        by_cases h4 : (min (max 0 jitter) ((min w h : ℤ) / 2)) ≤ 0
        · rw [if_pos h4]
          exact Or.inr rfl
        · rw [if_neg h4]
          exact jitteredPx_le w h (clampRadius w h radius)
            (min (max 0 jitter) ((min w h : ℤ) / 2)).toNat (max 0 (min 1 jd)) noise x y
            (roundedRectPx w h (clampRadius w h radius) x y)

/-- C10: for every size, radius, jitter depth, jitter density and noise
field, each pixel of the mask returned by create_edge_mask is at most the
corresponding pixel of the clean rounded-rectangle mask returned by
create_edge_mask at the same size and radius with jitter = 0 (whatever
density and noise that call uses), and every pixel of the result is either
0 or 255: the jitter pass only erodes opaque pixels and never adds opacity. -/
theorem create_edge_mask_jitter_monotone (w h : ℕ) (radius jitter : ℤ)
    (jd jd2 : ℚ) (noise noise2 : ℕ → ℕ → ℕ) (x y : ℕ) :
    create_edge_mask w h radius jitter jd noise x y ≤
      create_edge_mask w h radius 0 jd2 noise2 x y ∧
    (create_edge_mask w h radius jitter jd noise x y = 0 ∨
      create_edge_mask w h radius jitter jd noise x y = 255) := by
  have hclean := create_edge_mask_zero_jitter w h radius jd2 noise2 x y
  have hcases := create_edge_mask_le_clean w h radius jitter jd noise x y
  constructor
  · rcases hcases with hv | hv
    · rw [hv]
      exact Nat.zero_le _
    · rw [hv, hclean]
  · rcases hcases with hv | hv
    · exact Or.inl hv
    · rw [hv]
      by_cases h1 : clampRadius w h radius = 0
      · simp only [h1, if_pos rfl]
        split_ifs <;> simp
      · rw [if_neg h1]
        exact roundedRectPx_cases w h (clampRadius w h radius) x y

/-- C7: create_edge_mask with radius 0 returns the all-opaque mask (255 at
every requested pixel); with a positive radius whose quarter-circle corners
fit in the mask (2·radius < width and 2·radius < height) and zero jitter or
zero jitter density, it returns the clean rounded-rectangle mask, whose four
exact corner pixels (0,0), (w-1,0), (w-1,h-1), (0,h-1) are 0 while its
centre pixel (w/2, h/2) is 255. -/
theorem create_edge_mask_corners_spec (w h : ℕ) (radius jitter : ℤ) (jd : ℚ)
    (noise : ℕ → ℕ → ℕ) (x y : ℕ) (hx : x < w) (hy : y < h)
    (hr : 0 < radius) (hw : 2 * radius < (w : ℤ)) (hh : 2 * radius < (h : ℤ))
    (hz : jitter ≤ 0 ∨ jd ≤ 0) :
    create_edge_mask w h 0 jitter jd noise x y = 255 ∧
    create_edge_mask w h radius jitter jd noise 0 0 = 0 ∧
    create_edge_mask w h radius jitter jd noise (w - 1) 0 = 0 ∧
    create_edge_mask w h radius jitter jd noise (w - 1) (h - 1) = 0 ∧
    create_edge_mask w h radius jitter jd noise 0 (h - 1) = 0 ∧
    create_edge_mask w h radius jitter jd noise (w / 2) (h / 2) = 255 := by
  have hzz : ((clampRadius w h radius : ℕ) : ℤ) = radius := by
    unfold clampRadius
    omega
  have hrc0 : clampRadius w h radius ≠ 0 := by omega
  have hform : ∀ a b : ℕ, create_edge_mask w h radius jitter jd noise a b =
      roundedRectPx w h (clampRadius w h radius) a b := by
    intro a b
    simp only [create_edge_mask]
    rw [if_neg hrc0]
    rcases hz with hj | hjd
    · rw [if_pos (show (max 0 jitter) = 0 by omega)]
    · by_cases hj0 : (max 0 jitter) = 0
      · rw [if_pos hj0]
      · rw [if_neg hj0,
          if_pos (show (max 0 (min 1 jd)) = 0 from
            max_eq_left (le_trans (min_le_right _ _) hjd))]
  have hcornerTL : roundedRectPx w h (clampRadius w h radius) 0 0 = 0 := by
    unfold roundedRectPx
    rw [if_neg ?hno]
    case hno =>
      unfold insideRounded
      intro hins
      obtain ⟨-, -, -, -, hTL, -, -, -⟩ := hins
      have hq := hTL ⟨by omega, by omega⟩
      simp only [Nat.cast_zero, sub_zero] at hq
      nlinarith [hq, show (1 : ℤ) ≤ ((clampRadius w h radius : ℕ) : ℤ) by omega]
  have hcornerTR : roundedRectPx w h (clampRadius w h radius) (w - 1) 0 = 0 := by
    unfold roundedRectPx
    rw [if_neg ?hno]
    case hno =>
      unfold insideRounded
      intro hins
      obtain ⟨-, -, -, -, -, hTR, -, -⟩ := hins
      have hq := hTR ⟨by omega, by omega⟩
      have hu : ((w - 1 : ℕ) : ℤ) = (w : ℤ) - 1 := by omega
      rw [hu] at hq
      simp only [Nat.cast_zero, sub_zero] at hq
      nlinarith [hq, show (1 : ℤ) ≤ ((clampRadius w h radius : ℕ) : ℤ) by omega]
  have hcornerBR : roundedRectPx w h (clampRadius w h radius) (w - 1) (h - 1) = 0 := by
    unfold roundedRectPx
    rw [if_neg ?hno]
    case hno =>
      unfold insideRounded
      intro hins
      obtain ⟨-, -, -, -, -, -, hBR, -⟩ := hins
      have hq := hBR ⟨by omega, by omega⟩
      have hu : ((w - 1 : ℕ) : ℤ) = (w : ℤ) - 1 := by omega
      have hv : ((h - 1 : ℕ) : ℤ) = (h : ℤ) - 1 := by omega
      rw [hu, hv] at hq
      nlinarith [hq, show (1 : ℤ) ≤ ((clampRadius w h radius : ℕ) : ℤ) by omega]
  have hcornerBL : roundedRectPx w h (clampRadius w h radius) 0 (h - 1) = 0 := by
    unfold roundedRectPx
    rw [if_neg ?hno]
    case hno =>
      unfold insideRounded
      intro hins
      obtain ⟨-, -, -, -, -, -, -, hBL⟩ := hins
      have hq := hBL ⟨by omega, by omega⟩
      have hv : ((h - 1 : ℕ) : ℤ) = (h : ℤ) - 1 := by omega
      rw [hv] at hq
      simp only [Nat.cast_zero, sub_zero] at hq
      nlinarith [hq, show (1 : ℤ) ≤ ((clampRadius w h radius : ℕ) : ℤ) by omega]
  have hcenter : roundedRectPx w h (clampRadius w h radius) (w / 2) (h / 2) = 255 := by
    unfold roundedRectPx
    rw [if_pos ?hyes]
    case hyes =>
      unfold insideRounded
      refine ⟨by omega, by omega, by omega, by omega, ?_, ?_, ?_, ?_⟩ <;>
        (intro hcon; exfalso; omega)
  have hrad0 : clampRadius w h 0 = 0 := by
    unfold clampRadius
    omega
  refine ⟨?_, ?_, ?_, ?_, ?_, ?_⟩
  · simp only [create_edge_mask]
    rw [if_pos hrad0, if_pos ⟨hx, hy⟩]
  · rw [hform]
    exact hcornerTL
  · rw [hform]
    exact hcornerTR
  · rw [hform]
    exact hcornerBR
  · rw [hform]
    exact hcornerBL
  · rw [hform]
    exact hcenter

/-- C7 witness: an 8×8 mask with radius 2 and zero jitter, and the radius-0
all-opaque case at pixel (3, 5). -/
theorem create_edge_mask_corners_witness :
    create_edge_mask 8 8 0 0 (2 / 5) (fun _ _ => 0) 3 5 = 255 ∧
    create_edge_mask 8 8 2 0 (2 / 5) (fun _ _ => 0) 0 0 = 0 ∧
    create_edge_mask 8 8 2 0 (2 / 5) (fun _ _ => 0) (8 - 1) 0 = 0 ∧
    create_edge_mask 8 8 2 0 (2 / 5) (fun _ _ => 0) (8 - 1) (8 - 1) = 0 ∧
    create_edge_mask 8 8 2 0 (2 / 5) (fun _ _ => 0) 0 (8 - 1) = 0 ∧
    create_edge_mask 8 8 2 0 (2 / 5) (fun _ _ => 0) (8 / 2) (8 / 2) = 255 :=
  create_edge_mask_corners_spec 8 8 2 0 (2 / 5) (fun _ _ => 0) 3 5
    (by decide) (by decide) (by decide) (by decide) (by decide) (Or.inl (by decide))

/-- C1 witness: the rectangle with corners (0,0), (2,0), (2,2), (0,2). -/
theorem get_visible_edges_rect_witness :
    get_visible_edges ((0 : ℚ), (0 : ℚ)) (2, 0) (2, 2) (0, 2) =
      [⟨"bottom", (2, 2), (0, 2), (0, 2 - 0)⟩] ∧
    visibility (0, 2 - 0) = 1 ∧
    visibility (outwardOf (centroid4 (0, 0) (2, 0) (2, 2) (0, 2)) (0, 0) (2, 0)) = 0 ∧
    (∀ c p nm, mkEdge c p p nm = none) :=
  get_visible_edges_rect_spec 0 2 0 2 (by norm_num) (by norm_num)

end SceneMaker
